import Mathlib

/-!
Verification model of the `audit_logger` repository (`src/audit_logger.py`).

Python runtime values that flow through the logger are modelled by the
inductive type `PyVal` (JSON-serializable values: `None`, booleans, integers,
strings, lists, dicts).  Python dicts are modelled as insertion-ordered
association lists `List (String × PyVal)`; real Python dicts never carry a
duplicate key, which is expressed by the `NodupKeys` predicate where a proof
needs it.  The mutable `AuditLogger` object is modelled as a state record
threaded through the methods; exceptions are modelled with `Except`, and the
externally visible effects (lines written through the file handler, rows
inserted in the database) are recorded in the state.
-/

/-- Model of the Python values handled by the logger (JSON-serializable). -/
inductive PyVal where
  | none : PyVal
  | bool : Bool → PyVal
  | int : Int → PyVal
  | str : String → PyVal
  | list : List PyVal → PyVal
  | dict : List (String × PyVal) → PyVal
deriving Repr

mutual

/-- Decidable equality on `PyVal`, modelling Python `==` / `!=` on these
values (for the values this program handles, Python equality coincides with
structural equality). -/
def PyVal.decEq : (a b : PyVal) → Decidable (a = b)
  | .none, .none => isTrue rfl
  | .none, .bool _ => isFalse (fun h => by cases h)
  | .none, .int _ => isFalse (fun h => by cases h)
  | .none, .str _ => isFalse (fun h => by cases h)
  | .none, .list _ => isFalse (fun h => by cases h)
  | .none, .dict _ => isFalse (fun h => by cases h)
  | .bool _, .none => isFalse (fun h => by cases h)
  | .bool a, .bool b =>
      if h : a = b then isTrue (by rw [h]) else isFalse (fun hc => by cases hc; exact h rfl)
  | .bool _, .int _ => isFalse (fun h => by cases h)
  | .bool _, .str _ => isFalse (fun h => by cases h)
  | .bool _, .list _ => isFalse (fun h => by cases h)
  | .bool _, .dict _ => isFalse (fun h => by cases h)
  | .int _, .none => isFalse (fun h => by cases h)
  | .int _, .bool _ => isFalse (fun h => by cases h)
  | .int a, .int b =>
      if h : a = b then isTrue (by rw [h]) else isFalse (fun hc => by cases hc; exact h rfl)
  | .int _, .str _ => isFalse (fun h => by cases h)
  | .int _, .list _ => isFalse (fun h => by cases h)
  | .int _, .dict _ => isFalse (fun h => by cases h)
  | .str _, .none => isFalse (fun h => by cases h)
  | .str _, .bool _ => isFalse (fun h => by cases h)
  | .str _, .int _ => isFalse (fun h => by cases h)
  | .str a, .str b =>
      if h : a = b then isTrue (by rw [h]) else isFalse (fun hc => by cases hc; exact h rfl)
  | .str _, .list _ => isFalse (fun h => by cases h)
  | .str _, .dict _ => isFalse (fun h => by cases h)
  | .list _, .none => isFalse (fun h => by cases h)
  | .list _, .bool _ => isFalse (fun h => by cases h)
  | .list _, .int _ => isFalse (fun h => by cases h)
  | .list _, .str _ => isFalse (fun h => by cases h)
  | .list as, .list bs =>
      match PyVal.decEqList as bs with
      | isTrue h => isTrue (by rw [h])
      | isFalse h => isFalse (fun hc => by cases hc; exact h rfl)
  | .list _, .dict _ => isFalse (fun h => by cases h)
  | .dict _, .none => isFalse (fun h => by cases h)
  | .dict _, .bool _ => isFalse (fun h => by cases h)
  | .dict _, .int _ => isFalse (fun h => by cases h)
  | .dict _, .str _ => isFalse (fun h => by cases h)
  | .dict _, .list _ => isFalse (fun h => by cases h)
  | .dict as, .dict bs =>
      match PyVal.decEqEntries as bs with
      | isTrue h => isTrue (by rw [h])
      | isFalse h => isFalse (fun hc => by cases hc; exact h rfl)

/-- Decidable equality on lists of `PyVal`. -/
def PyVal.decEqList : (as bs : List PyVal) → Decidable (as = bs)
  | [], [] => isTrue rfl
  | [], _ :: _ => isFalse (fun h => by cases h)
  | _ :: _, [] => isFalse (fun h => by cases h)
  | a :: as, b :: bs =>
      match PyVal.decEq a b with
      | isFalse h1 => isFalse (fun hc => by cases hc; exact h1 rfl)
      | isTrue h1 =>
          match PyVal.decEqList as bs with
          | isTrue h2 => isTrue (by rw [h1, h2])
          | isFalse h2 => isFalse (fun hc => by cases hc; exact h2 rfl)

/-- Decidable equality on dict entry lists. -/
def PyVal.decEqEntries : (as bs : List (String × PyVal)) → Decidable (as = bs)
  | [], [] => isTrue rfl
  | [], _ :: _ => isFalse (fun h => by cases h)
  | _ :: _, [] => isFalse (fun h => by cases h)
  | (k1, v1) :: as, (k2, v2) :: bs =>
      if hk : k1 = k2 then
        match PyVal.decEq v1 v2 with
        | isFalse h1 => isFalse (fun hc => by cases hc; exact h1 rfl)
        | isTrue h1 =>
            match PyVal.decEqEntries as bs with
            | isTrue h2 => isTrue (by rw [hk, h1, h2])
            | isFalse h2 => isFalse (fun hc => by cases hc; exact h2 rfl)
      else isFalse (fun hc => by cases hc; exact hk rfl)

end

instance : DecidableEq PyVal := PyVal.decEq

/-- First-match lookup in an association list, modelling Python `d[k]` /
`k in d` / `d.get(k)` on a dict (Python dicts have unique keys, so
first-match agrees with the dict semantics). -/
def lookupKey (k : String) : List (String × PyVal) → Option PyVal
  | [] => Option.none
  | p :: ps => if p.1 = k then some p.2 else lookupKey k ps

/-- A Python dict never holds the same key twice. -/
def NodupKeys (m : List (String × PyVal)) : Prop := (m.map Prod.fst).Nodup

instance (m : List (String × PyVal)) : Decidable (NodupKeys m) := by
  unfold NodupKeys; infer_instance

/-- Model of Python `d.get(k)` (default `None`). -/
def getKey (data : List (String × PyVal)) (k : String) : PyVal :=
  (lookupKey k data).getD PyVal.none

/-! ## Redactor (`_redact_pii`, src/audit_logger.py lines 90-97) -/

/-- The fixed PII field list, exactly as in `_redact_pii`. -/
def piiFields : List String :=
  ["email", "phone", "address", "name", "ssn", "credit_card", "password"]

/-- The literal redaction marker. -/
def redactedMarker : PyVal := PyVal.str "[REDACTED]"

/-- Model of the dict update `redacted_data[field] = '[REDACTED]'`: replace
the value at the (unique) occurrence of the key, keeping its position. -/
def updateFirst (f : String) (v : PyVal) :
    List (String × PyVal) → List (String × PyVal)
  | [] => []
  | p :: ps => if p.1 = f then (p.1, v) :: ps else p :: updateFirst f v ps

/-- One iteration of the `for field in pii_fields` loop:
`if field in redacted_data: redacted_data[field] = '[REDACTED]'`. -/
def redactStep (f : String) (m : List (String × PyVal)) :
    List (String × PyVal) :=
  if (lookupKey f m).isSome then updateFirst f redactedMarker m else m

/-- The whole loop over a field list. -/
def redactFields : List String → List (String × PyVal) → List (String × PyVal)
  | [], m => m
  | f :: fs, m => redactFields fs (redactStep f m)

/-- `_redact_pii` on a dict: start from a (shallow) copy of the input and
replace the value under every present PII field by the marker.  The input
mapping itself is untouched (the method mutates only the copy). -/
def redactPiiDict (m : List (String × PyVal)) : List (String × PyVal) :=
  redactFields piiFields m

/-- Pointwise form of one redaction step: what `redactStep f` does to each
entry of a duplicate-free dict. -/
def redactEntry (f : String) (p : String × PyVal) : String × PyVal :=
  if p.1 = f then (p.1, redactedMarker) else p

/-- Pointwise form of the whole loop on a duplicate-free dict. -/
def redactEntryAll (fs : List String) (p : String × PyVal) : String × PyVal :=
  if p.1 ∈ fs then (p.1, redactedMarker) else p

/-- Python exceptions that the modelled code can raise. -/
inductive PyErr where
  | attributeError : String → PyErr
  | typeError : String → PyErr
deriving DecidableEq, Repr

/-- Message text of an exception, as interpolated into the diagnostic lines. -/
def pyErrMsg : PyErr → String
  | PyErr.attributeError s => s
  | PyErr.typeError s => s

/-- `_redact_pii` as called on an arbitrary value for `data`.
On a dict it redacts; on a list, `data.copy()` succeeds and
`field in redacted_data` is element membership, so the first present PII
string makes `redacted_data[field] = ...` raise `TypeError`, and a list
without PII strings is returned unchanged; every other value has no
`.copy` attribute, so `data.copy()` raises `AttributeError`. -/
def redactPii : PyVal → Except PyErr PyVal
  | PyVal.dict m => Except.ok (PyVal.dict (redactPiiDict m))
  | PyVal.list l =>
      if piiFields.any (fun f => l.contains (PyVal.str f)) then
        Except.error (PyErr.typeError "list indices must be integers or slices, not str")
      else Except.ok (PyVal.list l)
  | _ => Except.error (PyErr.attributeError "object has no attribute copy")

/-! ## Python `json.dumps`

Model of `json.dumps(v)` with the default options (`ensure_ascii=True`,
separators `", "` and `": "`), plus the `sort_keys=True` variant used by
`_hash_sensitive_data`.  Python renders a dict with `sort_keys=True` by
sorting the keys (code-point lexicographic order) and rendering each entry;
since each entry is rendered independently of its position, the model
renders the entries first and then sorts the `(raw key, rendered entry)`
pairs by raw key, which yields the same string. -/

/-- Lowercase hex rendering of a value below 16^4, 4 digits. -/
def hex4 (n : Nat) : String :=
  String.mk [Nat.digitChar (n / 4096 % 16), Nat.digitChar (n / 256 % 16),
    Nat.digitChar (n / 16 % 16), Nat.digitChar (n % 16)]

/-- JSON escaping of one character, following CPython's `ensure_ascii`
encoder: printable ASCII other than quote and backslash is literal,
the usual two-character escapes are used for the common controls, and
everything else becomes `\uXXXX` (with a surrogate pair above U+FFFF). -/
def jsonEscapeChar (c : Char) : String :=
  if c = '"' then "\\\""
  else if c = '\\' then "\\\\"
  else if c = '\n' then "\\n"
  else if c = '\t' then "\\t"
  else if c = '\r' then "\\r"
  else if c.toNat = 8 then "\\b"
  else if c.toNat = 12 then "\\f"
  else if 32 ≤ c.toNat ∧ c.toNat ≤ 126 then String.singleton c
  else if c.toNat < 65536 then "\\u" ++ hex4 c.toNat
  else
    let v := c.toNat - 65536
    "\\u" ++ hex4 (55296 + v / 1024) ++ "\\u" ++ hex4 (56320 + v % 1024)

/-- JSON string literal for `s`. -/
def jsonQuote (s : String) : String :=
  "\"" ++ String.join (s.toList.map jsonEscapeChar) ++ "\""

/-- Comparison of entries by raw key (Python compares `str` by code points,
which is exactly `String` order). -/
def keyLE {α : Type} (p q : String × α) : Prop := p.1 ≤ q.1

/-- Strict version of `keyLE`, used to make sorted lists rigid. -/
def keyLT {α : Type} (p q : String × α) : Prop := p.1 < q.1

instance {α : Type} : DecidableRel (keyLE (α := α)) := fun p q =>
  inferInstanceAs (Decidable (p.1 ≤ q.1))

instance {α : Type} : IsTotal (String × α) keyLE :=
  ⟨fun p q => le_total p.1 q.1⟩

instance {α : Type} : IsTrans (String × α) keyLE :=
  ⟨fun _ _ _ h1 h2 => le_trans h1 h2⟩

instance {α : Type} : IsAntisymm (String × α) (keyLT (α := α)) :=
  ⟨fun _ _ h1 h2 => False.elim (lt_asymm h1 h2)⟩

/-- Sorting of rendered dict entries by raw key (`sorted(d.items())` on the
keys, as `json.dumps(..., sort_keys=True)` does). -/
def sortByKey {α : Type} (l : List (String × α)) : List (String × α) :=
  List.insertionSort keyLE l

/-- Render a list of strings joined by the default item separator `", "`. -/
def joinComma (l : List String) : String := String.intercalate ", " l

mutual

/-- `json.dumps(v)`; with `sk = true` this is
`json.dumps(v, sort_keys=True)`. -/
def pyDumps (sk : Bool) : PyVal → String
  | PyVal.none => "null"
  | PyVal.bool b => if b then "true" else "false"
  | PyVal.int i => toString i
  | PyVal.str s => jsonQuote s
  | PyVal.list l => "[" ++ joinComma (pyDumpsList sk l) ++ "]"
  | PyVal.dict d =>
      let rendered := pyDumpsEntries sk d
      let ordered := if sk then sortByKey rendered else rendered
      "\x7b" ++ joinComma (ordered.map (fun p => jsonQuote p.1 ++ ": " ++ p.2)) ++ "\x7d"

/-- Rendering of the members of a list value. -/
def pyDumpsList (sk : Bool) : List PyVal → List String
  | [] => []
  | v :: vs => pyDumps sk v :: pyDumpsList sk vs

/-- Rendering of dict entries as `(raw key, rendered value)` pairs. -/
def pyDumpsEntries (sk : Bool) : List (String × PyVal) → List (String × String)
  | [] => []
  | (k, v) :: ps => (k, pyDumps sk v) :: pyDumpsEntries sk ps

end

/-! ## SHA-256 (`hashlib.sha256(...).hexdigest()`)

Executable model of SHA-256 over byte lists, with 32-bit words as `Nat`
reduced mod `2^32`.  The round and state constants are derived, as in the
standard, from the fractional parts of the cube/square roots of the first
primes. -/

/-- Truncation to a 32-bit word. -/
def w32 (n : Nat) : Nat := n % 4294967296

/-- Right rotation of a 32-bit word. -/
def rotr32 (k x : Nat) : Nat := w32 ((x >>> k) ||| (x <<< (32 - k)))

/-- Bitwise complement of a 32-bit word. -/
def not32 (x : Nat) : Nat := 4294967295 - x

/-- Integer cube root (largest `c` with `c^3 ≤ n`) for `n < 2^108`,
by binary descent over 36 bits. -/
def icbrt (n : Nat) : Nat :=
  List.foldl
    (fun c k => let c2 := c + 2 ^ k; if c2 * c2 * c2 ≤ n then c2 else c)
    0 ((List.range 36).reverse)

/-- The first 64 primes. -/
def first64Primes : List Nat :=
  [2, 3, 5, 7, 11, 13, 17, 19, 23, 29, 31, 37, 41, 43, 47, 53, 59, 61, 67,
   71, 73, 79, 83, 89, 97, 101, 103, 107, 109, 113, 127, 131, 137, 139, 149,
   151, 157, 163, 167, 173, 179, 181, 191, 193, 197, 199, 211, 223, 227, 229,
   233, 239, 241, 251, 257, 263, 269, 271, 277, 281, 283, 293, 307, 311]

/-- SHA-256 round constants: fractional parts of the cube roots of the
first 64 primes. -/
def sha256K : List Nat :=
  first64Primes.map (fun p => w32 (icbrt (p * 2 ^ 96)))

/-- SHA-256 starting state: fractional parts of the square roots of the
first 8 primes. -/
def sha256H0 : List Nat :=
  [2, 3, 5, 7, 11, 13, 17, 19].map (fun p => w32 (Nat.sqrt (p * 2 ^ 64)))

/-- Message padding: `0x80`, zeros to 56 mod 64, then the bit length as
8 big-endian bytes. -/
def sha256Pad (msg : List Nat) : List Nat :=
  let len := msg.length
  let zeros := (119 - len % 64) % 64
  let bitLen := len * 8
  msg ++ [128] ++ List.replicate zeros 0 ++
    [56, 48, 40, 32, 24, 16, 8, 0].map (fun k => (bitLen >>> k) % 256)

/-- Split a byte list into 64-byte blocks (fuelled to stay structural). -/
def chunks64Aux : Nat → List Nat → List (List Nat)
  | 0, _ => []
  | _ + 1, [] => []
  | fuel + 1, l => l.take 64 :: chunks64Aux fuel (l.drop 64)

/-- All 64-byte blocks of a padded message. -/
def chunks64 (l : List Nat) : List (List Nat) := chunks64Aux l.length l

/-- The 16 initial 32-bit big-endian words of one block. -/
def blockWords (b : List Nat) : List Nat :=
  (List.range 16).map (fun i =>
    b.getD (4 * i) 0 * 16777216 + b.getD (4 * i + 1) 0 * 65536 +
    b.getD (4 * i + 2) 0 * 256 + b.getD (4 * i + 3) 0)

/-- Message-schedule extension from 16 to 64 words. -/
def extendWords (ws : List Nat) : List Nat :=
  List.foldl
    (fun w _ =>
      let t := w.length
      let s0 := rotr32 7 (w.getD (t - 15) 0) ^^^ rotr32 18 (w.getD (t - 15) 0) ^^^
        (w.getD (t - 15) 0 >>> 3)
      let s1 := rotr32 17 (w.getD (t - 2) 0) ^^^ rotr32 19 (w.getD (t - 2) 0) ^^^
        (w.getD (t - 2) 0 >>> 10)
      w ++ [w32 (s1 + w.getD (t - 7) 0 + s0 + w.getD (t - 16) 0)])
    ws (List.range 48)

/-- One compression round on the 8-word working state. -/
def compressStep (kc wc : Nat) (st : List Nat) : List Nat :=
  match st with
  | [a, b, c, d, e, f, g, h] =>
      let bs1 := rotr32 6 e ^^^ rotr32 11 e ^^^ rotr32 25 e
      let chv := (e &&& f) ^^^ (not32 e &&& g)
      let t1 := w32 (h + bs1 + chv + kc + wc)
      let bs0 := rotr32 2 a ^^^ rotr32 13 a ^^^ rotr32 22 a
      let maj := (a &&& b) ^^^ (a &&& c) ^^^ (b &&& c)
      let t2 := w32 (bs0 + maj)
      [w32 (t1 + t2), a, b, c, w32 (d + t1), e, f, g]
  | _ => st

/-- Process one 64-byte block into the running 8-word state. -/
def processBlock (h : List Nat) (block : List Nat) : List Nat :=
  let w := extendWords (blockWords block)
  let st := List.foldl
    (fun st t => compressStep (sha256K.getD t 0) (w.getD t 0) st)
    h (List.range 64)
  (List.zip h st).map (fun p => w32 (p.1 + p.2))

/-- SHA-256 digest of a byte list, as 32 bytes. -/
def sha256Bytes (msg : List Nat) : List Nat :=
  let hs := List.foldl processBlock sha256H0 (chunks64 (sha256Pad msg))
  hs.flatMap (fun v => [v >>> 24 % 256, v >>> 16 % 256, v >>> 8 % 256, v % 256])

/-- `hashlib.sha256(bytes).hexdigest()`: lowercase hex of the digest. -/
def sha256hex (msg : List Nat) : String :=
  String.mk ((sha256Bytes msg).flatMap
    (fun b => [Nat.digitChar (b / 16), Nat.digitChar (b % 16)]))

/-- UTF-8 bytes of a string, modelling `s.encode('utf-8')`. -/
def utf8Bytes (s : String) : List Nat :=
  s.toUTF8.toList.map (fun b => b.toNat)

/-! ## Digest Engine (`_hash_sensitive_data`, src/audit_logger.py lines 83-88) -/

/-- Model of `isinstance(data, (dict, list))`. -/
def isDictOrList : PyVal → Bool
  | PyVal.dict _ => true
  | PyVal.list _ => true
  | _ => false

/-- What the local variable `data_str` holds after line 87: either an actual
string, or — in the `else` branch — the builtin type `str` itself, because
the source reads `else str` rather than `else str(data)`. -/
inductive PyStrOrType where
  | strVal : String → PyStrOrType
  | strType : PyStrOrType
deriving DecidableEq, Repr

/-- Semantics of `data_str.encode('utf-8')`.  When `data_str` is the builtin
type `str`, this is the unbound method call `str.encode('utf-8')`, which
encodes the receiver argument — the literal string `'utf-8'` — with the
default codec. -/
def encodeUtf8Method : PyStrOrType → List Nat
  | PyStrOrType.strVal s => utf8Bytes s
  | PyStrOrType.strType => utf8Bytes "utf-8"

/-- `_hash_sensitive_data`: `None` maps to `None`; otherwise the SHA-256 hex
digest of `data_str.encode('utf-8')`, where
`data_str = json.dumps(data, sort_keys=True) if isinstance(data, ((dict, list))) else str`. -/
def hashSensitiveData (data : PyVal) : Option String :=
  match data with
  | PyVal.none => Option.none
  | _ =>
      let dataStr := if isDictOrList data then PyStrOrType.strVal (pyDumps true data)
        else PyStrOrType.strType
      some (sha256hex (encodeUtf8Method dataStr))

/-! ## The `AuditLogger` object

The mutable object is a state record.  Interactions with the outside world
are made explicit:
  - `fileLines` records, in order, every line emitted through the
    file handler attached to the `audit_logger` logger (the handler level is
    INFO, so info/warning/error calls all append one line);
  - `dbRows` records the rows committed by successful inserts and
    `storeAttempts` counts entries into the insert `try` block of
    `_store_in_database`;
  - `connectOk` / `schemaOk` / `insertOk` oracles say whether the
    corresponding external database operation succeeds or raises.
Python attributes assigned only on some paths (here `db_available`, set
solely inside `_setup_database`) are `Option Bool`: `Option.none` means the
attribute was never assigned, so reading it raises `AttributeError`. -/

/-- Severity of a line written through the logging handler. -/
inductive LogLevel where
  | info : LogLevel
  | warning : LogLevel
  | error : LogLevel
deriving DecidableEq, Repr

/-- The `log_entry` dict built in `log_event` (lines 120-136). -/
structure LogEntry where
  log_id : String
  timestamp : String
  event_type : String
  user_id : Option String
  inference_id : PyVal
  model_name : PyVal
  input_hash : Option String
  output_hash : Option String
  status : PyVal
  duration_ms : PyVal
  gpu_usage : PyVal
  ip_address : PyVal
  user_agent : PyVal
  metadata : PyVal
  pii_redacted : Bool
deriving Repr

/-- The `log_entry` dict as a Python value, in the construction order of the
source, for `json.dumps(log_entry)`. -/
def LogEntry.toPyVal (e : LogEntry) : PyVal :=
  PyVal.dict
    [("log_id", PyVal.str e.log_id),
     ("timestamp", PyVal.str e.timestamp),
     ("event_type", PyVal.str e.event_type),
     ("user_id", (e.user_id.map PyVal.str).getD PyVal.none),
     ("inference_id", e.inference_id),
     ("model_name", e.model_name),
     ("input_hash", (e.input_hash.map PyVal.str).getD PyVal.none),
     ("output_hash", (e.output_hash.map PyVal.str).getD PyVal.none),
     ("status", e.status),
     ("duration_ms", e.duration_ms),
     ("gpu_usage", e.gpu_usage),
     ("ip_address", e.ip_address),
     ("user_agent", e.user_agent),
     ("metadata", e.metadata),
     ("pii_redacted", PyVal.bool e.pii_redacted)]

/-- State of an `AuditLogger` instance plus the observable external effects. -/
structure AuditLogger where
  db_config : Option (List (String × PyVal))
  /-- `db_connection`: `Option.none` models Python `None`; `some true` a live
  connection object; `some false` a connection object that has been
  closed (still truthy in Python). -/
  db_connection : Option Bool
  /-- `db_available`: `Option.none` models "attribute never assigned". -/
  db_available : Option Bool
  fileLines : List (LogLevel × String)
  /-- Whether the file handler has been flushed and closed. -/
  fileClosed : Bool
  dbRows : List LogEntry
  storeAttempts : Nat
deriving Repr

/-- One line written through the `audit_logger` logger; the attached file
handler has level INFO, so every call appends one formatted line. -/
def emitLine (s : AuditLogger) (lvl : LogLevel) (msg : String) : AuditLogger :=
  { s with fileLines := s.fileLines ++ [(lvl, msg)] }

/-- Python truthiness of `db_config` in `if db_config:` — `None` and the
empty dict are both falsy. -/
def dbConfigTruthy : Option (List (String × PyVal)) → Bool
  | Option.none => false
  | some d => !d.isEmpty

/-- `_setup_database` (lines 37-81): connect, create table and indexes,
commit; on success set `db_available = True` and log an info line; on any
exception log a warning and set `db_available = False`. -/
def setupDatabase (s : AuditLogger) (connectOk schemaOk : Bool) : AuditLogger :=
  if connectOk then
    let s1 := { s with db_connection := some true }
    if schemaOk then
      let s2 := emitLine s1 LogLevel.info "Database setup complete"
      { s2 with db_available := some true }
    else
      let s2 := emitLine s1 LogLevel.warning
        "Database connection failed, using file logging only"
      { s2 with db_available := some false }
  else
    let s1 := emitLine s LogLevel.warning
      "Database connection failed, using file logging only"
    { s1 with db_available := some false }

/-- `__init__` (lines 11-35): attach the file handler, store the config,
set `db_connection = None`, and run `_setup_database` only when `db_config`
is truthy.  Note that `db_available` is not assigned here. -/
def AuditLogger.init (db_config : Option (List (String × PyVal)))
    (connectOk schemaOk : Bool) : AuditLogger :=
  let s : AuditLogger :=
    { db_config := db_config, db_connection := Option.none,
      db_available := Option.none, fileLines := [], fileClosed := false,
      dbRows := [], storeAttempts := 0 }
  if dbConfigTruthy db_config then setupDatabase s connectOk schemaOk else s

/-- `_store_in_database` (lines 148-183): one insert attempt inside its own
`try`; on success the row is committed; on failure an error line is logged
and nothing else changes.  An insert on a closed connection fails. -/
def storeInDatabase (s : AuditLogger) (e : LogEntry) (insertOk : Bool) :
    AuditLogger :=
  let s1 := { s with storeAttempts := s.storeAttempts + 1 }
  if insertOk && (s1.db_connection == some true) then
    { s1 with dbRows := s1.dbRows ++ [e] }
  else
    emitLine s1 LogLevel.error "Database storage failed"

/-- Lines 111-136 of `log_event`: build the `log_entry` dict.  Raises
whatever `_redact_pii` raises on a non-dict `metadata` value. -/
def buildEntry (event_type : String) (data : List (String × PyVal))
    (user_id : Option String) (logId ts : String) : Except PyErr LogEntry :=
  let metadata := (lookupKey "metadata" data).getD (PyVal.dict [])
  match redactPii metadata with
  | Except.error e => Except.error e
  | Except.ok redactedMetadata =>
      Except.ok
        { log_id := logId, timestamp := ts, event_type := event_type,
          user_id := user_id,
          inference_id := getKey data "inference_id",
          model_name := getKey data "model_name",
          input_hash := hashSensitiveData (getKey data "input"),
          output_hash := hashSensitiveData (getKey data "output"),
          status := getKey data "status",
          duration_ms := getKey data "duration_ms",
          gpu_usage := getKey data "gpu_usage",
          ip_address := getKey data "ip_address",
          user_agent := getKey data "user_agent",
          metadata := redactedMetadata,
          pii_redacted := metadata != redactedMetadata }

/-- The body of the `try` in `log_event` (lines 110-143).  An error carries
the state at the raise point, because lines already written stay written.
After the file write, `self.db_available` is read: if the attribute was
never assigned this raises `AttributeError`. -/
def logEventTry (s : AuditLogger) (event_type : String)
    (data : List (String × PyVal)) (user_id : Option String)
    (logId ts : String) (insertOk : Bool) :
    Except (PyErr × AuditLogger) AuditLogger :=
  match buildEntry event_type data user_id logId ts with
  | Except.error e => Except.error (e, s)
  | Except.ok entry =>
      let s1 := emitLine s LogLevel.info (pyDumps false entry.toPyVal)
      match s1.db_available with
      | Option.none =>
          Except.error
            (PyErr.attributeError "AuditLogger object has no attribute db_available", s1)
      | some avail =>
          if avail && s1.db_connection.isSome then
            Except.ok (storeInDatabase s1 entry insertOk)
          else Except.ok s1

/-- `log_event` as seen by the caller: the `try` body, with any exception
caught by the `except Exception` clause, which logs one error line through
the diagnostic channel.  An `Except.error` result would mean an exception
escaping to the caller. -/
def logEventMethod (s : AuditLogger) (event_type : String)
    (data : List (String × PyVal)) (user_id : Option String)
    (logId ts : String) (insertOk : Bool) : Except PyErr AuditLogger :=
  match logEventTry s event_type data user_id logId ts insertOk with
  | Except.ok s1 => Except.ok s1
  | Except.error (e, s1) =>
      Except.ok (emitLine s1 LogLevel.error ("Failed to log event: " ++ pyErrMsg e))

/-- The state after a `log_event` call (total, since the method catches
every exception). -/
def logEvent (s : AuditLogger) (event_type : String)
    (data : List (String × PyVal)) (user_id : Option String)
    (logId ts : String) (insertOk : Bool) : AuditLogger :=
  match logEventMethod s event_type data user_id logId ts insertOk with
  | Except.ok s1 => s1
  | Except.error _ => s

/-- `close` (lines 185-188): `if self.db_connection: self.db_connection.close()`.
A connection object (open or already closed) is truthy; `None` is falsy.
The file handler is not touched. -/
def AuditLogger.close (s : AuditLogger) : AuditLogger :=
  match s.db_connection with
  | Option.none => s
  | some _ => { s with db_connection := some false }

/-- Arguments of one `log_event` call, with the per-call oracles. -/
structure CallArgs where
  event_type : String
  data : List (String × PyVal)
  user_id : Option String
  logId : String
  ts : String
  insertOk : Bool

/-- A sequence of `log_event` calls. -/
def runCalls (s : AuditLogger) (calls : List CallArgs) : AuditLogger :=
  List.foldl
    (fun st c => logEvent st c.event_type c.data c.user_id c.logId c.ts c.insertOk)
    s calls

/-! ## Lemmas about the Redactor -/

theorem lookupKey_updateFirst (f : String) (v : PyVal)
    (l : List (String × PyVal)) (k : String) :
    lookupKey k (updateFirst f v l) =
      if k = f ∧ (lookupKey f l).isSome = true then some v else lookupKey k l := by
  induction l with
  | nil => simp [lookupKey, updateFirst]
  | cons p ps ih =>
    by_cases hpf : p.1 = f
    · by_cases hk : k = f
      · simp [updateFirst, lookupKey, hpf, hk, hpf.trans hk.symm]
      · have hpk : ¬ p.1 = k := fun h => hk (h.symm.trans hpf)
        have hfk : ¬ f = k := fun h => hk h.symm
        simp [updateFirst, lookupKey, hpf, hk, hpk, hfk]
    · by_cases hpk : p.1 = k
      · have hk : ¬ k = f := fun h => hpf (hpk.trans h)
        simp [updateFirst, lookupKey, hpf, hpk, hk]
      · simp [updateFirst, lookupKey, hpf, hpk, ih]

theorem lookupKey_redactStep (f : String) (m : List (String × PyVal))
    (k : String) :
    lookupKey k (redactStep f m) =
      if k = f ∧ (lookupKey k m).isSome = true then some redactedMarker
      else lookupKey k m := by
  unfold redactStep
  by_cases hf : (lookupKey f m).isSome = true
  · rw [if_pos hf, lookupKey_updateFirst]
    by_cases hk : k = f
    · subst hk; simp [hf]
    · simp [hk]
  · rw [if_neg hf]
    by_cases hk : k = f
    · subst hk; simp [hf]
    · simp [hk]

theorem isSome_lookupKey_redactStep (f : String) (m : List (String × PyVal))
    (k : String) :
    (lookupKey k (redactStep f m)).isSome = (lookupKey k m).isSome := by
  rw [lookupKey_redactStep]
  by_cases h : k = f ∧ (lookupKey k m).isSome = true
  · rw [if_pos h]; simp [h.2]
  · rw [if_neg h]

theorem lookupKey_redactFields (fs : List String) (m : List (String × PyVal))
    (k : String) :
    lookupKey k (redactFields fs m) =
      if k ∈ fs ∧ (lookupKey k m).isSome = true then some redactedMarker
      else lookupKey k m := by
  induction fs generalizing m with
  | nil => simp [redactFields]
  | cons f fs ih =>
    simp only [redactFields]
    rw [ih, isSome_lookupKey_redactStep, lookupKey_redactStep]
    by_cases hkf : k = f
    · subst hkf
      by_cases hA : (lookupKey k m).isSome = true
      · simp [hA]
      · simp [hA]
    · by_cases hfs : k ∈ fs
      · simp [hkf, hfs]
      · simp [hkf, hfs]

theorem keys_updateFirst (f : String) (v : PyVal) (l : List (String × PyVal)) :
    (updateFirst f v l).map Prod.fst = l.map Prod.fst := by
  induction l with
  | nil => rfl
  | cons p ps ih =>
    by_cases hpf : p.1 = f
    · simp [updateFirst, hpf]
    · simp [updateFirst, hpf, ih]

theorem keys_redactStep (f : String) (m : List (String × PyVal)) :
    (redactStep f m).map Prod.fst = m.map Prod.fst := by
  unfold redactStep
  by_cases hf : (lookupKey f m).isSome = true
  · rw [if_pos hf, keys_updateFirst]
  · rw [if_neg hf]

theorem keys_redactFields (fs : List String) (m : List (String × PyVal)) :
    (redactFields fs m).map Prod.fst = m.map Prod.fst := by
  induction fs generalizing m with
  | nil => rfl
  | cons f fs ih => rw [redactFields, ih, keys_redactStep]

theorem map_redactEntry_id (f : String) (l : List (String × PyVal))
    (h : f ∉ l.map Prod.fst) : l.map (redactEntry f) = l := by
  induction l with
  | nil => rfl
  | cons p ps ih =>
    simp only [List.map_cons, List.mem_cons, not_or] at h ⊢
    have hpf : ¬ p.1 = f := fun hc => h.1 hc.symm
    rw [ih h.2]
    simp [redactEntry, hpf]

theorem not_mem_keys_of_lookup_none (f : String) (l : List (String × PyVal))
    (h : (lookupKey f l).isSome = false) : f ∉ l.map Prod.fst := by
  induction l with
  | nil => simp
  | cons p ps ih =>
    simp only [lookupKey] at h
    by_cases hpf : p.1 = f
    · rw [if_pos hpf] at h; simp at h
    · rw [if_neg hpf] at h
      simp only [List.map_cons, List.mem_cons, not_or]
      exact ⟨fun hc => hpf hc.symm, ih h⟩

theorem updateFirst_eq_map (f : String) (l : List (String × PyVal))
    (h : (l.map Prod.fst).Nodup) :
    updateFirst f redactedMarker l = l.map (redactEntry f) := by
  induction l with
  | nil => rfl
  | cons p ps ih =>
    simp only [List.map_cons, List.nodup_cons] at h
    by_cases hpf : p.1 = f
    · have : f ∉ ps.map Prod.fst := hpf ▸ h.1
      rw [updateFirst, if_pos hpf, List.map_cons]
      rw [map_redactEntry_id f ps this]
      simp [redactEntry, hpf]
    · rw [updateFirst, if_neg hpf, List.map_cons, ih h.2]
      simp [redactEntry, hpf]

theorem redactStep_eq_map (f : String) (m : List (String × PyVal))
    (h : (m.map Prod.fst).Nodup) :
    redactStep f m = m.map (redactEntry f) := by
  unfold redactStep
  by_cases hf : (lookupKey f m).isSome = true
  · rw [if_pos hf, updateFirst_eq_map f m h]
  · rw [if_neg hf]
    have : f ∉ m.map Prod.fst :=
      not_mem_keys_of_lookup_none f m (Bool.not_eq_true _ ▸ hf)
    rw [map_redactEntry_id f m this]

theorem fst_redactEntry (f : String) (p : String × PyVal) :
    (redactEntry f p).1 = p.1 := by
  unfold redactEntry; by_cases h : p.1 = f <;> simp [h]

theorem redactFields_eq_map (fs : List String) (m : List (String × PyVal))
    (h : (m.map Prod.fst).Nodup) :
    redactFields fs m = m.map (redactEntryAll fs) := by
  induction fs generalizing m with
  | nil =>
    rw [redactFields]
    have : ∀ p ∈ m, redactEntryAll [] p = p := by
      intro p _; simp [redactEntryAll]
    rw [List.map_congr_left this, List.map_id']
  | cons f fs ih =>
    rw [redactFields, redactStep_eq_map f m h]
    have hkeys : ((m.map (redactEntry f)).map Prod.fst).Nodup := by
      rw [List.map_map]
      have : ∀ p ∈ m, (Prod.fst ∘ redactEntry f) p = p.1 := by
        intro p _; exact fst_redactEntry f p
      rw [List.map_congr_left this]
      exact h
    rw [ih _ hkeys, List.map_map]
    apply List.map_congr_left
    intro p _
    by_cases hpf : p.1 = f
    · simp [Function.comp, redactEntry, redactEntryAll, hpf]
    · by_cases hps : p.1 ∈ fs
      · simp [Function.comp, redactEntry, redactEntryAll, hpf, hps]
      · simp [Function.comp, redactEntry, redactEntryAll, hpf, hps]

theorem map_eq_self_iff_forall {α : Type} (g : α → α) (l : List α) :
    l.map g = l ↔ ∀ p ∈ l, g p = p := by
  induction l with
  | nil => simp
  | cons a l ih => simp [ih]

theorem redactPiiDict_ne_iff (m : List (String × PyVal)) (h : NodupKeys m) :
    m ≠ redactPiiDict m ↔
      ∃ p ∈ m, p.1 ∈ piiFields ∧ p.2 ≠ redactedMarker := by
  unfold NodupKeys at h
  rw [redactPiiDict, redactFields_eq_map piiFields m h, ne_comm, ne_eq,
    map_eq_self_iff_forall]
  push_neg
  apply exists_congr
  intro p
  apply and_congr_right
  intro _
  obtain ⟨k, v⟩ := p
  by_cases hpi : k ∈ piiFields
  · simp [redactEntryAll, hpi, eq_comm]
  · simp [redactEntryAll, hpi]

/-! ## Lemmas about the Digest Engine -/

theorem sortByKey_perm {α : Type} (l : List (String × α)) :
    (sortByKey l).Perm l :=
  List.perm_insertionSort keyLE l

theorem sortByKey_sorted {α : Type} (l : List (String × α)) :
    List.Sorted keyLE (sortByKey l) :=
  List.sorted_insertionSort keyLE l

theorem sorted_keyLT_of_sorted_keyLE {α : Type} (l : List (String × α))
    (hs : List.Sorted keyLE l) (hn : (l.map Prod.fst).Nodup) :
    List.Sorted keyLT l := by
  have hne : l.Pairwise (fun p q : String × α => p.1 ≠ q.1) :=
    List.pairwise_map.mp hn
  exact (hs.and hne).imp (fun h => lt_of_le_of_ne h.1 h.2)

theorem sortByKey_eq_of_perm {α : Type} (l1 l2 : List (String × α))
    (hp : l1.Perm l2) (hn : (l1.map Prod.fst).Nodup) :
    sortByKey l1 = sortByKey l2 := by
  have hn1 : ((sortByKey l1).map Prod.fst).Nodup :=
    (((sortByKey_perm l1).map Prod.fst).nodup_iff).mpr hn
  have hn2 : (l2.map Prod.fst).Nodup :=
    ((hp.map Prod.fst).nodup_iff).mp hn
  have hn2s : ((sortByKey l2).map Prod.fst).Nodup :=
    (((sortByKey_perm l2).map Prod.fst).nodup_iff).mpr hn2
  have hperm : (sortByKey l1).Perm (sortByKey l2) :=
    ((sortByKey_perm l1).trans hp).trans (sortByKey_perm l2).symm
  exact List.eq_of_perm_of_sorted hperm
    (sorted_keyLT_of_sorted_keyLE _ (sortByKey_sorted l1) hn1)
    (sorted_keyLT_of_sorted_keyLE _ (sortByKey_sorted l2) hn2s)

theorem pyDumpsEntries_eq_map (sk : Bool) (l : List (String × PyVal)) :
    pyDumpsEntries sk l = l.map (fun p => (p.1, pyDumps sk p.2)) := by
  induction l with
  | nil => simp [pyDumpsEntries]
  | cons p ps ih =>
    obtain ⟨k, v⟩ := p
    simp [pyDumpsEntries, ih]

theorem pyDumps_dict_perm (m1 m2 : List (String × PyVal))
    (hn : NodupKeys m1) (hp : m1.Perm m2) :
    pyDumps true (PyVal.dict m1) = pyDumps true (PyVal.dict m2) := by
  have hpe : (pyDumpsEntries true m1).Perm (pyDumpsEntries true m2) := by
    rw [pyDumpsEntries_eq_map, pyDumpsEntries_eq_map]
    exact hp.map _
  have hke : ((pyDumpsEntries true m1).map Prod.fst).Nodup := by
    rw [pyDumpsEntries_eq_map, List.map_map]
    have : ∀ p ∈ m1, (Prod.fst ∘ fun p : String × PyVal => (p.1, pyDumps true p.2)) p = p.1 :=
      fun p _ => rfl
    rw [List.map_congr_left this]
    exact hn
  have hsort : sortByKey (pyDumpsEntries true m1) = sortByKey (pyDumpsEntries true m2) :=
    sortByKey_eq_of_perm _ _ hpe hke
  simp [pyDumps, hsort]

/-! ## Lemmas about the façade and the sinks -/

theorem logEventMethod_eq_ok (s : AuditLogger) (event_type : String)
    (data : List (String × PyVal)) (user_id : Option String)
    (logId ts : String) (insertOk : Bool) :
    logEventMethod s event_type data user_id logId ts insertOk =
      Except.ok (logEvent s event_type data user_id logId ts insertOk) := by
  unfold logEvent logEventMethod
  cases logEventTry s event_type data user_id logId ts insertOk with
  | ok s1 => rfl
  | error p => obtain ⟨e, s1⟩ := p; rfl

theorem emitLine_db_available (s : AuditLogger) (lvl : LogLevel) (msg : String) :
    (emitLine s lvl msg).db_available = s.db_available := rfl

/-- Count of warning lines is unchanged by an info or error line. -/
theorem filter_warning_emitLine (s : AuditLogger) (lvl : LogLevel)
    (msg : String) (h : ¬ lvl = LogLevel.warning) :
    ((emitLine s lvl msg).fileLines.filter
        (fun p => p.1 == LogLevel.warning)) =
      s.fileLines.filter (fun p => p.1 == LogLevel.warning) := by
  unfold emitLine
  rw [List.filter_append]
  have : (LogLevel.warning == lvl) = false := by
    cases lvl <;> simp_all
  cases lvl <;> simp_all

/-- One `log_event` call on a state whose store was marked unavailable at
startup: the store stays marked unavailable, no insert is attempted, and
no warning line is added. -/
theorem logEvent_unavailable_step (s : AuditLogger) (event_type : String)
    (data : List (String × PyVal)) (user_id : Option String)
    (logId ts : String) (insertOk : Bool)
    (h : s.db_available = some false) :
    (logEvent s event_type data user_id logId ts insertOk).db_available = some false ∧
    (logEvent s event_type data user_id logId ts insertOk).storeAttempts = s.storeAttempts ∧
    ((logEvent s event_type data user_id logId ts insertOk).fileLines.filter
        (fun p => p.1 == LogLevel.warning)) =
      s.fileLines.filter (fun p => p.1 == LogLevel.warning) := by
  unfold logEvent logEventMethod logEventTry
  cases hb : buildEntry event_type data user_id logId ts with
  | error e =>
    refine ⟨h, rfl, ?_⟩
    exact filter_warning_emitLine s LogLevel.error _ (by simp)
  | ok entry =>
    have hav : (emitLine s LogLevel.info (pyDumps false entry.toPyVal)).db_available
        = some false := h
    simp only [hav]
    refine ⟨h, rfl, ?_⟩
    exact filter_warning_emitLine s LogLevel.info _ (by simp)

/-- Invariant propagation over any sequence of calls. -/
theorem runCalls_unavailable (calls : List CallArgs) (s : AuditLogger)
    (h : s.db_available = some false) :
    (runCalls s calls).db_available = some false ∧
    (runCalls s calls).storeAttempts = s.storeAttempts ∧
    ((runCalls s calls).fileLines.filter (fun p => p.1 == LogLevel.warning)) =
      s.fileLines.filter (fun p => p.1 == LogLevel.warning) := by
  induction calls generalizing s with
  | nil => exact ⟨h, rfl, rfl⟩
  | cons c cs ih =>
    have hstep := logEvent_unavailable_step s c.event_type c.data c.user_id
      c.logId c.ts c.insertOk h
    have hrec := ih (logEvent s c.event_type c.data c.user_id c.logId c.ts c.insertOk)
      hstep.1
    refine ⟨hrec.1, ?_, ?_⟩
    · rw [runCalls] at hrec ⊢
      rw [List.foldl_cons]
      rw [hrec.2.1, hstep.2.1]
    · rw [runCalls] at hrec ⊢
      rw [List.foldl_cons]
      rw [hrec.2.2, hstep.2.2]

/-! ## Claim theorems -/

/-- C1: `_redact_pii` returns a mapping in which every key of the fixed PII
set that is present in the input is mapped to the literal marker
`'[REDACTED]'`, every other key keeps its original value unchanged (a nested
sub-mapping passes through as the very same value, with no recursive
redaction), and the key sequence of the mapping is preserved.  The input
mapping itself is untouched: the method mutates only the shallow copy, which
in this pure model is reflected by `redactPiiDict` being a function of `m`
that leaves `m` itself available unchanged. -/
theorem redact_pii_spec (m : List (String × PyVal)) (k : String) :
    (lookupKey k (redactPiiDict m) =
      if k ∈ piiFields ∧ (lookupKey k m).isSome = true then
        some (PyVal.str "[REDACTED]")
      else lookupKey k m) ∧
    (redactPiiDict m).map Prod.fst = m.map Prod.fst :=
  ⟨lookupKey_redactFields piiFields m k, keys_redactFields piiFields m⟩

/-- C2: `log_event` never lets an exception escape to the caller: the method
(the `try` body together with its `except Exception` handler) always returns
`Except.ok`, for every state and every input — including the states where the
body raises internally (missing `db_available` attribute, non-dict metadata,
failing insert); whatever the body raises is caught at the boundary and
reported as one error-level diagnostic line. -/
theorem log_event_never_raises (s : AuditLogger) (event_type : String)
    (data : List (String × PyVal)) (user_id : Option String)
    (logId ts : String) (insertOk : Bool) :
    logEventMethod s event_type data user_id logId ts insertOk =
      Except.ok (logEvent s event_type data user_id logId ts insertOk) :=
  logEventMethod_eq_ok s event_type data user_id logId ts insertOk

/-- C3 (code bug): in file-only mode (`db_config` absent) a `log_event` call
does NOT append exactly one line to the file sink.  `__init__` never assigns
`db_available` when `db_config` is falsy, so line 142 raises
`AttributeError`; the call still returns normally, but the file receives the
audit line AND a second, error-level `Failed to log event` line. -/
theorem file_only_mode_extra_diagnostic_line :
    (AuditLogger.init Option.none true true).fileLines.length = 0 ∧
    (logEvent (AuditLogger.init Option.none true true) "user_authentication" []
        Option.none "log1" "t1" true).fileLines.map Prod.fst =
      [LogLevel.info, LogLevel.error] ∧
    (logEvent (AuditLogger.init Option.none true true) "user_authentication" []
        Option.none "log1" "t1" true).db_available = Option.none := by
  decide

/-- C4 (code bug): two `log_event` payloads with different scalar
`data.input` values produce the SAME hash — line 87 binds the builtin type
`str` instead of `str(data)`, so every non-dict/list value hashes to the
digest of the literal string `utf-8`.  Here the distinct inputs `"a"` and
`"b"` collide. -/
theorem scalar_hash_collision :
    hashSensitiveData (PyVal.str "a") = hashSensitiveData (PyVal.str "b") ∧
    PyVal.str "a" ≠ PyVal.str "b" :=
  ⟨rfl, by decide⟩

/-- C5: the digest is deterministic and order-independent over mappings —
two dicts that are equal as sets of key-value pairs (a permutation of one
another, keys being unique as in any Python dict) hash identically, because
`json.dumps(..., sort_keys=True)` serializes both to the same string — and
the digest of `None` is absent (`None`), not a hash of `"null"`. -/
theorem digest_deterministic_order_independent :
    (∀ m1 m2 : List (String × PyVal), NodupKeys m1 → m1.Perm m2 →
      hashSensitiveData (PyVal.dict m1) = hashSensitiveData (PyVal.dict m2)) ∧
    hashSensitiveData PyVal.none = Option.none := by
  constructor
  · intro m1 m2 hn hp
    have hd := pyDumps_dict_perm m1 m2 hn hp
    simp [hashSensitiveData, isDictOrList, encodeUtf8Method, hd]
  · rfl

/-- Witness for C5 at the spec's own example:
`digest({"a":1,"b":2}) == digest({"b":2,"a":1})`. -/
theorem digest_deterministic_order_independent_witness :
    hashSensitiveData (PyVal.dict [("a", PyVal.int 1), ("b", PyVal.int 2)]) =
      hashSensitiveData (PyVal.dict [("b", PyVal.int 2), ("a", PyVal.int 1)]) :=
  digest_deterministic_order_independent.1 _ _ (by decide) (by decide)

/-- C6: the `pii_redacted` field of the record built by `log_event` is true
iff at least one PII-designated key is present in the original metadata
mapping with a value other than the `'[REDACTED]'` marker; in particular it
is false when `data` has no `metadata` key (the default `{}` makes `m = []`)
or when the metadata mapping is empty. -/
theorem pii_redacted_iff_spec (event_type : String)
    (data : List (String × PyVal)) (user_id : Option String)
    (logId ts : String) (m : List (String × PyVal))
    (hm : (lookupKey "metadata" data).getD (PyVal.dict []) = PyVal.dict m)
    (hn : NodupKeys m) :
    ∃ e, buildEntry event_type data user_id logId ts = Except.ok e ∧
      (e.pii_redacted = true ↔
        ∃ p ∈ m, p.1 ∈ piiFields ∧ p.2 ≠ PyVal.str "[REDACTED]") := by
  unfold buildEntry
  rw [hm]
  simp only [redactPii]
  refine ⟨_, rfl, ?_⟩
  show (PyVal.dict m != PyVal.dict (redactPiiDict m)) = true ↔ _
  rw [bne_iff_ne, ne_eq, PyVal.dict.injEq]
  exact redactPiiDict_ne_iff m hn

/-- Witness for C6: a metadata mapping holding a real password makes
`pii_redacted` true. -/
theorem pii_redacted_iff_spec_witness :
    ∃ e, buildEntry "user_authentication"
        [("metadata", PyVal.dict [("username", PyVal.str "alice"),
          ("password", PyVal.str "x")])] (some "alice") "log1" "t1" =
        Except.ok e ∧
      (e.pii_redacted = true ↔
        ∃ p ∈ [("username", PyVal.str "alice"), ("password", PyVal.str "x")],
          p.1 ∈ piiFields ∧ p.2 ≠ PyVal.str "[REDACTED]") :=
  pii_redacted_iff_spec "user_authentication" _ (some "alice") "log1" "t1" _
    rfl (by decide)

/-- C7: when the store connection or the schema setup fails at construction,
the store is marked unavailable for the life of the instance: exactly one
diagnostic warning is written, `db_available` stays `False` after every
subsequent sequence of `log_event` calls, no insert is ever attempted
(`storeAttempts` stays 0), no further warning appears, and no exception
escapes any subsequent `log_event` call. -/
theorem startup_failure_disables_store (cfg : Option (List (String × PyVal)))
    (connectOk schemaOk : Bool) (htr : dbConfigTruthy cfg = true)
    (hfail : connectOk = false ∨ schemaOk = false) :
    (AuditLogger.init cfg connectOk schemaOk).db_available = some false ∧
    ((AuditLogger.init cfg connectOk schemaOk).fileLines.filter
        (fun p => p.1 == LogLevel.warning)).length = 1 ∧
    ∀ calls : List CallArgs,
      (runCalls (AuditLogger.init cfg connectOk schemaOk) calls).db_available =
        some false ∧
      (runCalls (AuditLogger.init cfg connectOk schemaOk) calls).storeAttempts = 0 ∧
      ((runCalls (AuditLogger.init cfg connectOk schemaOk) calls).fileLines.filter
          (fun p => p.1 == LogLevel.warning)).length = 1 ∧
      ∀ c : CallArgs,
        logEventMethod (runCalls (AuditLogger.init cfg connectOk schemaOk) calls)
            c.event_type c.data c.user_id c.logId c.ts c.insertOk =
          Except.ok (logEvent
            (runCalls (AuditLogger.init cfg connectOk schemaOk) calls)
            c.event_type c.data c.user_id c.logId c.ts c.insertOk) := by
  have hbase : (AuditLogger.init cfg connectOk schemaOk).db_available = some false ∧
      (AuditLogger.init cfg connectOk schemaOk).fileLines =
        [(LogLevel.warning, "Database connection failed, using file logging only")] ∧
      (AuditLogger.init cfg connectOk schemaOk).storeAttempts = 0 := by
    unfold AuditLogger.init
    simp only [htr, if_true]
    cases hfail with
    | inl h => subst h; simp [setupDatabase, emitLine]
    | inr h =>
      subst h
      cases connectOk with
      | false => simp [setupDatabase, emitLine]
      | true => simp [setupDatabase, emitLine]
  refine ⟨hbase.1, ?_, ?_⟩
  · rw [hbase.2.1]; rfl
  · intro calls
    have hrc := runCalls_unavailable calls _ hbase.1
    refine ⟨hrc.1, ?_, ?_, ?_⟩
    · rw [hrc.2.1, hbase.2.2]
    · rw [hrc.2.2, hbase.2.1]; rfl
    · intro c
      exact logEventMethod_eq_ok _ c.event_type c.data c.user_id c.logId c.ts
        c.insertOk

/-- Witness for C7: a logger whose connection attempt failed has the store
marked unavailable, and ten (indeed any) subsequent calls attempt no insert. -/
theorem startup_failure_disables_store_witness :
    (AuditLogger.init (some [("host", PyVal.str "h")]) false true).db_available =
      some false :=
  (startup_failure_disables_store (some [("host", PyVal.str "h")]) false true
    (by decide) (Or.inl rfl)).1

/-- C8: with the store marked available and a live connection, a failing
insert degrades gracefully: the audit line is still written, one error line
reports the failure, `db_available` and the connection are left untouched,
the row is not stored, and exactly one insert attempt is made (no retry);
the method still returns `Except.ok`. -/
theorem insert_failure_graceful (s : AuditLogger) (event_type : String)
    (data : List (String × PyVal)) (user_id : Option String)
    (logId ts : String)
    (hav : s.db_available = some true) (hconn : s.db_connection = some true)
    (hmd : ∃ m, (lookupKey "metadata" data).getD (PyVal.dict []) = PyVal.dict m) :
    (logEvent s event_type data user_id logId ts false).db_available = some true ∧
    (logEvent s event_type data user_id logId ts false).db_connection = some true ∧
    (logEvent s event_type data user_id logId ts false).dbRows = s.dbRows ∧
    (logEvent s event_type data user_id logId ts false).storeAttempts =
      s.storeAttempts + 1 ∧
    (∃ msg, (logEvent s event_type data user_id logId ts false).fileLines =
      s.fileLines ++ [(LogLevel.info, msg),
        (LogLevel.error, "Database storage failed")]) ∧
    logEventMethod s event_type data user_id logId ts false =
      Except.ok (logEvent s event_type data user_id logId ts false) := by
  obtain ⟨m, hm⟩ := hmd
  have hentry : ∃ e, buildEntry event_type data user_id logId ts = Except.ok e := by
    unfold buildEntry
    rw [hm]
    exact ⟨_, rfl⟩
  obtain ⟨entry, he⟩ := hentry
  obtain ⟨cfg, conn, avail, lines, fc, rows, att⟩ := s
  replace hav : avail = some true := hav
  replace hconn : conn = some true := hconn
  subst hav
  subst hconn
  refine ⟨?_, ?_, ?_, ?_, ⟨pyDumps false entry.toPyVal, ?_⟩, ?_⟩ <;>
    simp [logEvent, logEventMethod, logEventTry, he, storeInDatabase, emitLine]

/-- Witness for C8: a healthy logger (connected, schema created) whose next
insert fails. -/
theorem insert_failure_graceful_witness :
    (logEvent (AuditLogger.init (some [("host", PyVal.str "h")]) true true)
        "e" [] Option.none "l" "t" false).storeAttempts =
      (AuditLogger.init (some [("host", PyVal.str "h")]) true true).storeAttempts
        + 1 :=
  (insert_failure_graceful
    (AuditLogger.init (some [("host", PyVal.str "h")]) true true)
    "e" [] Option.none "l" "t" (by decide) (by decide) ⟨[], rfl⟩).2.2.2.1

/-- C9 counterexample: at a concrete logger with a live store connection,
`close()` does release the connection but does NOT flush or close the file
handle (`fileClosed` is still `false` afterwards), refuting the claim that
`close()` flushes/closes the file handle. -/
theorem close_leaves_file_open :
    ((AuditLogger.init (some [("host", PyVal.str "h")]) true true).close).fileClosed
        = false ∧
    ((AuditLogger.init
        (some [("host", PyVal.str "h")]) true true).close).db_connection =
      some false := by
  decide

/-- C9 amended: for every logger state and any prior history, `close()`
releases the store connection when a connection object exists (its single
exit path always performs the release, also after earlier submission
failures), is a no-op when no connection exists, and leaves the file
handle exactly as it was — it is not flushed or closed by `close()`. -/
theorem close_spec_amended (s : AuditLogger) :
    (s.db_connection.isSome = true → (s.close).db_connection = some false) ∧
    (s.db_connection = Option.none → s.close = s) ∧
    (s.close).fileClosed = s.fileClosed := by
  unfold AuditLogger.close
  cases h : s.db_connection with
  | none => exact ⟨fun hc => by simp [h] at hc, fun _ => rfl, rfl⟩
  | some b => exact ⟨fun _ => rfl, fun hc => by simp [h] at hc, rfl⟩

/-- Witness for C9 amended, at a logger that connected successfully. -/
theorem close_spec_amended_witness :
    ((AuditLogger.init
        (some [("host", PyVal.str "h")]) true true).close).db_connection =
      some false :=
  (close_spec_amended (AuditLogger.init (some [("host", PyVal.str "h")]) true
    true)).1 (by decide)

/-- C10: every value that is neither `None` nor a mapping/sequence (any
string, number or boolean) hashes to the one constant digest — the SHA-256
of the bytes of the literal string `utf-8` — independently of the value,
because line 87 binds the builtin type `str` instead of `str(data)` and
`str.encode('utf-8')` encodes `'utf-8'` itself. -/
theorem scalar_hash_constant (v : PyVal) (h1 : v ≠ PyVal.none)
    (h2 : isDictOrList v = false) :
    hashSensitiveData v = some (sha256hex (utf8Bytes "utf-8")) := by
  cases v with
  | none => exact absurd rfl h1
  | bool b => rfl
  | int i => rfl
  | str s => rfl
  | list l => simp [isDictOrList] at h2
  | dict d => simp [isDictOrList] at h2

/-- Witness for C10 at the scalar `"hello"`. -/
theorem scalar_hash_constant_witness :
    hashSensitiveData (PyVal.str "hello") =
      some (sha256hex (utf8Bytes "utf-8")) :=
  scalar_hash_constant (PyVal.str "hello") (by decide) rfl
